import Mathlib

/-!
Verification of the configuration-merge and audit-pipeline specification of
`cargo-audit` (file `src/commands/audit.rs`), as a shallow embedding in Lean 4.

The visible source is the `audit` subcommand: the `AuditCommand` CLI struct,
its `Override<AuditConfig>` implementation (`override_config`), and `run`.
The matcher and report builder live outside the visible source and are
modelled from the specification where a claim needs them.
-/

namespace CargoAudit

/-- Advisory identifiers are opaque tokens once parsed; we represent the
parsed `rustsec::advisory::Id` as a string token. -/
abbrev AdvisoryId := String

/-- Target CPU architecture (`rustsec::platforms::target::Arch`), an opaque
enumeration for the merge logic; represented as a string token. -/
abbrev Arch := String

/-- Target operating system (`rustsec::platforms::target::OS`), an opaque
enumeration for the merge logic; represented as a string token. -/
abbrev OS := String

/-- Output format of the report renderer (`config::OutputFormat`). The source
in `src/` only ever names the `Json` variant; `Terminal` stands for the
non-JSON default. -/
inductive OutputFormat where
  | Terminal : OutputFormat
  | Json : OutputFormat
deriving DecidableEq, Repr

/-- The `cargo audit` subcommand CLI struct (`AuditCommand` in
`src/commands/audit.rs`), one field per `#[options(...)]` member. -/
structure AuditCommand where
  help : Bool
  version : Bool
  color : Option String
  db : Option String
  file : Option String
  ignore : List String
  no_fetch : Bool
  stale : Bool
  target_arch : Option Arch
  target_os : Option OS
  url : Option String
  quiet : Bool
  output_json : Bool
deriving DecidableEq, Repr

/-- An `AuditCommand` with every option absent / false, the `Default`
derivation of the Rust struct. -/
def AuditCommand.default : AuditCommand :=
  { help := false, version := false, color := none, db := none, file := none
  , ignore := [], no_fetch := false, stale := false, target_arch := none
  , target_os := none, url := none, quiet := false, output_json := false }

/-- The resolved configuration (`config::AuditConfig`). Only the fields
touched by `override_config` are visible in `src/`; `extra` stands for every
other field of the configuration struct, so frame properties can be stated. -/
structure AuditConfig (ε : Type) where
  color : Option String
  advisory_db_path : Option String
  ignore : List AdvisoryId
  no_fetch : Bool
  allow_stale : Bool
  target_arch : Option Arch
  target_os : Option OS
  advisory_db_url : Option String
  quiet : Bool
  output_format : OutputFormat
  extra : ε
deriving DecidableEq, Repr

/-- Result of `override_config`. In Rust the function returns
`Result<AuditConfig, FrameworkError>` but the only non-`Ok` outcome it ever
produces is a whole-process `exit(1)` (on an unparsable `--ignore` value),
modelled as `exitProcess` carrying the exit code and the offending string.
No `FrameworkError` value is ever constructed, so the type has no
corresponding constructor. -/
inductive MergeResult (ε : Type) where
  | ok : AuditConfig ε → MergeResult ε
  | exitProcess : Nat → String → MergeResult ε
deriving DecidableEq, Repr

/-- The `for advisory_id in &self.ignore` loop of `override_config`: each CLI
ignore string is parsed and pushed onto the configuration's ignore list in
order; the first parse failure terminates the process (`exit(1)`), modelled
as an `Except.error` carrying the unparsable string. -/
def pushIgnores (parse : String → Option AdvisoryId) :
    List String → List AdvisoryId → Except String (List AdvisoryId)
  | [], acc => .ok acc
  | s :: rest, acc =>
    match parse s with
    | some aid => pushIgnores parse rest (acc ++ [aid])
    | none => .error s

/-- `Override<AuditConfig>::override_config` from `src/commands/audit.rs`,
parameterised by the external advisory-id parser (`str::parse` into
`rustsec::advisory::Id`, which lives outside the visible source). Field
updates follow the source order: `color`, `advisory_db_path`, the ignore
loop, `no_fetch`, `allow_stale`, `target_arch`, `target_os`,
`advisory_db_url`, `quiet`, `output_format`. -/
def override_config (parse : String → Option AdvisoryId)
    (self : AuditCommand) (config : AuditConfig ε) : MergeResult ε :=
  let config :=
    match self.color with
    | some c => { config with color := some c }
    | none => config
  let config :=
    match self.db with
    | some d => { config with advisory_db_path := some d }
    | none => config
  match pushIgnores parse self.ignore config.ignore with
  | .error bad => .exitProcess 1 bad
  | .ok newIgnore =>
    let config := { config with ignore := newIgnore }
    let config := { config with no_fetch := config.no_fetch || self.no_fetch }
    let config := { config with allow_stale := config.allow_stale || self.stale }
    let config :=
      match self.target_arch with
      | some a => { config with target_arch := some a }
      | none => config
    let config :=
      match self.target_os with
      | some o => { config with target_os := some o }
      | none => config
    let config :=
      match self.url with
      | some u => { config with advisory_db_url := some u }
      | none => config
    let config := { config with quiet := config.quiet || self.quiet }
    let config :=
      if self.output_json then { config with output_format := OutputFormat.Json }
      else config
    .ok config

/-- Projection of a merge result onto the merged configuration, when the
merge did not terminate the process. -/
def MergeResult.getOk : MergeResult ε → Option (AuditConfig ε)
  | .ok c => some c
  | .exitProcess _ _ => none

/-- Ignore list of the merged configuration, when the merge succeeded. -/
def mergedIgnore (r : MergeResult ε) : Option (List AdvisoryId) :=
  (r.getOk).map AuditConfig.ignore

/-- Output format of the merged configuration, when the merge succeeded. -/
def mergedOutputFormat (r : MergeResult ε) : Option OutputFormat :=
  (r.getOk).map AuditConfig.output_format

/-- A parser under which every string is a valid advisory id, used for
concrete evaluations. -/
def parseAll : String → Option AdvisoryId := fun s => some s

/-- Override semantics of an optional CLI value over an optional config-file
value: the CLI value wins when present. -/
def cliOverride (cli : Option α) (base : Option α) : Option α :=
  match cli with
  | some v => some v
  | none => base

/-- A concrete base configuration with every field at its default, for
concrete evaluations. -/
def cfg0 : AuditConfig Unit :=
  { color := none, advisory_db_path := none, ignore := [], no_fetch := false
  , allow_stale := false, target_arch := none, target_os := none
  , advisory_db_url := none, quiet := false, output_format := .Terminal
  , extra := () }

lemma pushIgnores_ok_iff (parse : String → Option AdvisoryId)
    (ids : List String) (acc l : List AdvisoryId) :
    pushIgnores parse ids acc = .ok l ↔
      (∀ s ∈ ids, (parse s).isSome) ∧ l = acc ++ ids.filterMap parse := by
  induction ids generalizing acc with
  | nil => simp only [pushIgnores]; simp; exact eq_comm
  | cons s rest ih =>
    cases hp : parse s with
    | none => simp only [pushIgnores, hp]; simp [hp]
    | some a =>
      simp only [pushIgnores, hp]
      rw [ih]
      simp [hp, List.append_assoc]

lemma pushIgnores_error_of (parse : String → Option AdvisoryId)
    (ids : List String) (acc : List AdvisoryId)
    (h : ∃ s ∈ ids, parse s = none) :
    ∃ s, s ∈ ids ∧ parse s = none ∧ pushIgnores parse ids acc = .error s := by
  induction ids generalizing acc with
  | nil => simp at h
  | cons t rest ih =>
    cases hp : parse t with
    | none =>
      exact ⟨t, List.mem_cons_self t rest, hp, by simp only [pushIgnores, hp]⟩
    | some a =>
      obtain ⟨s, hs, hnone⟩ := h
      rcases List.mem_cons.mp hs with rfl | hmem
      · exact absurd hnone (by simp [hp])
      · obtain ⟨s', hs', hn', he'⟩ := ih (acc ++ [a]) ⟨s, hmem, hnone⟩
        exact ⟨s', List.mem_cons_of_mem t hs', hn',
          by simp only [pushIgnores, hp]; exact he'⟩

set_option maxRecDepth 8000 in
/-- Characteristic equation of `override_config`: the merge fails exactly
when the ignore loop hits an unparsable id, and otherwise produces the
record with CLI-present optionals overriding, booleans OR-combined, the
ignore lists concatenated, `Json` forced by `--json`, and every other field
untouched. -/
lemma override_config_eq (parse : String → Option AdvisoryId)
    (cmd : AuditCommand) (cfg : AuditConfig ε) :
    override_config parse cmd cfg =
      match pushIgnores parse cmd.ignore cfg.ignore with
      | .error bad => .exitProcess 1 bad
      | .ok l => .ok
        { color := cliOverride cmd.color cfg.color
        , advisory_db_path := cliOverride cmd.db cfg.advisory_db_path
        , ignore := l
        , no_fetch := cfg.no_fetch || cmd.no_fetch
        , allow_stale := cfg.allow_stale || cmd.stale
        , target_arch := cliOverride cmd.target_arch cfg.target_arch
        , target_os := cliOverride cmd.target_os cfg.target_os
        , advisory_db_url := cliOverride cmd.url cfg.advisory_db_url
        , quiet := cfg.quiet || cmd.quiet
        , output_format :=
            if cmd.output_json then OutputFormat.Json else cfg.output_format
        , extra := cfg.extra } := by
  cases hcolor : cmd.color <;> cases hdb : cmd.db <;>
    cases hpi : pushIgnores parse cmd.ignore cfg.ignore <;>
    cases harch : cmd.target_arch <;> cases hos : cmd.target_os <;>
    cases hurl : cmd.url <;> cases hjson : cmd.output_json <;>
    simp [override_config, cliOverride, hcolor, hdb, hpi, harch, hos, hurl, hjson]

@[simp] lemma cliOverride_some (v : α) (base : Option α) :
    cliOverride (some v) base = some v := rfl

@[simp] lemma cliOverride_none (base : Option α) :
    cliOverride none base = base := rfl

/-- Success characterization of `override_config`. -/
lemma override_config_ok_iff (parse : String → Option AdvisoryId)
    (cmd : AuditCommand) (cfg cfg' : AuditConfig ε) :
    override_config parse cmd cfg = .ok cfg' ↔
      (∀ s ∈ cmd.ignore, (parse s).isSome) ∧ cfg' =
        { color := cliOverride cmd.color cfg.color
        , advisory_db_path := cliOverride cmd.db cfg.advisory_db_path
        , ignore := cfg.ignore ++ cmd.ignore.filterMap parse
        , no_fetch := cfg.no_fetch || cmd.no_fetch
        , allow_stale := cfg.allow_stale || cmd.stale
        , target_arch := cliOverride cmd.target_arch cfg.target_arch
        , target_os := cliOverride cmd.target_os cfg.target_os
        , advisory_db_url := cliOverride cmd.url cfg.advisory_db_url
        , quiet := cfg.quiet || cmd.quiet
        , output_format :=
            if cmd.output_json then OutputFormat.Json else cfg.output_format
        , extra := cfg.extra } := by
  rw [override_config_eq]
  cases hpi : pushIgnores parse cmd.ignore cfg.ignore with
  | error bad =>
    simp only []
    constructor
    · intro h; exact absurd h (by simp)
    · rintro ⟨hall, -⟩
      rcases (pushIgnores_ok_iff parse cmd.ignore cfg.ignore
          (cfg.ignore ++ cmd.ignore.filterMap parse)).mpr ⟨hall, rfl⟩ with h
      rw [hpi] at h; cases h
  | ok l =>
    rcases (pushIgnores_ok_iff parse cmd.ignore cfg.ignore l).mp hpi with ⟨hall, rfl⟩
    simp only [MergeResult.ok.injEq]
    constructor
    · intro h; exact ⟨hall, h.symm⟩
    · intro h; exact h.2.symm

/-- Name of `Cargo.lock` (`CARGO_LOCK_FILE` in `src/commands/audit.rs`). -/
def CARGO_LOCK_FILE : String := "Cargo.lock"

/-- `PathBuf::from` on a string preserves the string; paths are modelled as
their string form. -/
def pathBufFrom (s : String) : String := s

/-- Observable action of `Runnable::run` for `AuditCommand`: print usage and
exit, print the version and exit, or audit a lockfile at the given path. -/
inductive RunAction where
  | printUsageAndStop : RunAction
  | printVersionAndStop : RunAction
  | audit : String → RunAction
deriving DecidableEq, Repr

/-- `Runnable::run` from `src/commands/audit.rs`: help and version short
circuit; otherwise the lockfile path is `--file`'s value when supplied,
else `CARGO_LOCK_FILE`, and the auditor is invoked on it. -/
def AuditCommand.run (self : AuditCommand) : RunAction :=
  if self.help then .printUsageAndStop
  else if self.version then .printVersionAndStop
  else .audit ((self.file.map pathBufFrom).getD (pathBufFrom CARGO_LOCK_FILE))

/-- Concrete commands and configurations for counterexamples and witnesses. -/
def cmdIgnoreTwice : AuditCommand :=
  { AuditCommand.default with ignore := ["RUSTSEC-2019-0001", "RUSTSEC-2019-0001"] }

def cmdIgnoreOnce : AuditCommand :=
  { AuditCommand.default with ignore := ["RUSTSEC-2019-0001"] }

def cfgIgnoreOnce : AuditConfig Unit :=
  { cfg0 with ignore := ["RUSTSEC-2019-0001"] }

def cfgJson : AuditConfig Unit := { cfg0 with output_format := .Json }

def cmdBoolFlags : AuditCommand :=
  { AuditCommand.default with stale := true, quiet := true }

def cfgNoFetch : AuditConfig Unit := { cfg0 with no_fetch := true }

def cmdOptions : AuditCommand :=
  { AuditCommand.default with
    color := some "never", db := some "/tmp/advisory-db",
    url := some "https://example.com/advisory-db.git",
    target_arch := some "x86_64" }

def cmdBadIgnore : AuditCommand :=
  { AuditCommand.default with ignore := ["not an id"] }

/-- A parser that rejects every string, for concrete evaluations of the
failure path. -/
def parseNone : String → Option AdvisoryId := fun _ => none

def cmdJson : AuditCommand := { AuditCommand.default with output_json := true }

def cmdFileStdin : AuditCommand := { AuditCommand.default with file := some "-" }

/-- C1 counterexample: listing the same (parsable) ignore id twice on the
CLI yields a merged ignore collection with the id twice, different from
listing it once — `override_config` appends every CLI id, duplicates do not
collapse. -/
theorem C1_counterexample_duplicates_kept :
    mergedIgnore (override_config parseAll cmdIgnoreTwice cfg0) =
      some ["RUSTSEC-2019-0001", "RUSTSEC-2019-0001"] ∧
    mergedIgnore (override_config parseAll cmdIgnoreOnce cfg0) =
      some ["RUSTSEC-2019-0001"] ∧
    mergedIgnore (override_config parseAll cmdIgnoreTwice cfg0) ≠
      mergedIgnore (override_config parseAll cmdIgnoreOnce cfg0) := by
  refine ⟨rfl, rfl, ?_⟩
  decide

/-- C1 (amended): the merged ignore collection is the config-file list with
every successfully parsed CLI ignore id appended in order — duplicates are
preserved, not collapsed — and membership in the merged collection is
exactly the union of the two sources. -/
theorem C1_ignore_append_union (parse : String → Option AdvisoryId)
    (cmd : AuditCommand) (cfg cfg' : AuditConfig ε)
    (h : override_config parse cmd cfg = .ok cfg') :
    cfg'.ignore = cfg.ignore ++ cmd.ignore.filterMap parse ∧
    ∀ a : AdvisoryId,
      a ∈ cfg'.ignore ↔ a ∈ cfg.ignore ∨ ∃ s ∈ cmd.ignore, parse s = some a := by
  obtain ⟨-, rfl⟩ := (override_config_ok_iff parse cmd cfg cfg').mp h
  refine ⟨rfl, fun a => ?_⟩
  simp [List.mem_append, List.mem_filterMap]

/-- Witness for C1: merging `--ignore RUSTSEC-2019-0001` into the default
configuration at a concrete input. -/
theorem C1_ignore_append_union_witness :
    cfgIgnoreOnce.ignore = cfg0.ignore ++ cmdIgnoreOnce.ignore.filterMap parseAll ∧
    ∀ a : AdvisoryId,
      a ∈ cfgIgnoreOnce.ignore ↔
        a ∈ cfg0.ignore ∨ ∃ s ∈ cmdIgnoreOnce.ignore, parseAll s = some a :=
  C1_ignore_append_union parseAll cmdIgnoreOnce cfg0 cfgIgnoreOnce rfl

/-- C2: in a successful merge, `no_fetch`, `allow_stale` and `quiet` are the
logical OR of the config-file value and the CLI flag; a boolean true in
either source is never reset. -/
theorem C2_booleans_or (parse : String → Option AdvisoryId)
    (cmd : AuditCommand) (cfg cfg' : AuditConfig ε)
    (h : override_config parse cmd cfg = .ok cfg') :
    cfg'.no_fetch = (cfg.no_fetch || cmd.no_fetch) ∧
    cfg'.allow_stale = (cfg.allow_stale || cmd.stale) ∧
    cfg'.quiet = (cfg.quiet || cmd.quiet) := by
  obtain ⟨-, rfl⟩ := (override_config_ok_iff parse cmd cfg cfg').mp h
  exact ⟨rfl, rfl, rfl⟩

/-- Merge of `cfgNoFetch` with `cmdBoolFlags`: all three booleans end up
set. -/
def cfgBoolMerged : AuditConfig Unit :=
  { cfg0 with no_fetch := true, allow_stale := true, quiet := true }

/-- Witness for C2: a base with `no_fetch` set merged with `--stale --quiet`. -/
theorem C2_booleans_or_witness :
    cfgBoolMerged.no_fetch = (cfgNoFetch.no_fetch || cmdBoolFlags.no_fetch) ∧
    cfgBoolMerged.allow_stale = (cfgNoFetch.allow_stale || cmdBoolFlags.stale) ∧
    cfgBoolMerged.quiet = (cfgNoFetch.quiet || cmdBoolFlags.quiet) :=
  C2_booleans_or parseAll cmdBoolFlags cfgNoFetch cfgBoolMerged rfl

/-- C3: each optional CLI value (color, db path, url, target arch, target
os) replaces the config-file value when supplied and leaves it unchanged
when absent. -/
theorem C3_optionals_override (parse : String → Option AdvisoryId)
    (cmd : AuditCommand) (cfg cfg' : AuditConfig ε)
    (h : override_config parse cmd cfg = .ok cfg') :
    (∀ c, cmd.color = some c → cfg'.color = some c) ∧
    (cmd.color = none → cfg'.color = cfg.color) ∧
    (∀ d, cmd.db = some d → cfg'.advisory_db_path = some d) ∧
    (cmd.db = none → cfg'.advisory_db_path = cfg.advisory_db_path) ∧
    (∀ u, cmd.url = some u → cfg'.advisory_db_url = some u) ∧
    (cmd.url = none → cfg'.advisory_db_url = cfg.advisory_db_url) ∧
    (∀ a, cmd.target_arch = some a → cfg'.target_arch = some a) ∧
    (cmd.target_arch = none → cfg'.target_arch = cfg.target_arch) ∧
    (∀ o, cmd.target_os = some o → cfg'.target_os = some o) ∧
    (cmd.target_os = none → cfg'.target_os = cfg.target_os) := by
  obtain ⟨-, rfl⟩ := (override_config_ok_iff parse cmd cfg cfg').mp h
  refine ⟨?_, ?_, ?_, ?_, ?_, ?_, ?_, ?_, ?_, ?_⟩ <;>
    first
      | (intro v hv; simp [hv])
      | (intro hv; simp [hv])

/-- Merge of the default configuration with `cmdOptions`. -/
def cfgOptions : AuditConfig Unit :=
  { cfg0 with
    color := some "never", advisory_db_path := some "/tmp/advisory-db",
    advisory_db_url := some "https://example.com/advisory-db.git",
    target_arch := some "x86_64" }

/-- Witness for C3: `--color never --db /tmp/advisory-db --url ...
--target-arch x86_64` over the default configuration (target os absent,
hence unchanged). -/
theorem C3_optionals_override_witness :
    cfgOptions.color = some "never" ∧
    cfgOptions.advisory_db_path = some "/tmp/advisory-db" ∧
    cfgOptions.advisory_db_url = some "https://example.com/advisory-db.git" ∧
    cfgOptions.target_arch = some "x86_64" ∧
    cfgOptions.target_os = cfg0.target_os := by
  have h := C3_optionals_override parseAll cmdOptions cfg0 cfgOptions rfl
  exact ⟨h.1 "never" rfl, h.2.2.1 "/tmp/advisory-db" rfl,
    h.2.2.2.2.1 "https://example.com/advisory-db.git" rfl,
    h.2.2.2.2.2.2.1 "x86_64" rfl, h.2.2.2.2.2.2.2.2.2 rfl⟩

/-- C4: when some `--ignore` value fails to parse, the merge terminates the
process with exit code 1, carrying a single offending id, and produces no
merged configuration. -/
theorem C4_unparsable_ignore_exits (parse : String → Option AdvisoryId)
    (cmd : AuditCommand) (cfg : AuditConfig ε)
    (h : ∃ s ∈ cmd.ignore, parse s = none) :
    ∃ bad, bad ∈ cmd.ignore ∧ parse bad = none ∧
      override_config parse cmd cfg = .exitProcess 1 bad := by
  obtain ⟨bad, hm, hn, he⟩ := pushIgnores_error_of parse cmd.ignore cfg.ignore h
  exact ⟨bad, hm, hn, by rw [override_config_eq, he]⟩

/-- Witness for C4: `--ignore` with a value the parser rejects. -/
theorem C4_unparsable_ignore_exits_witness :
    (∃ s ∈ cmdBadIgnore.ignore, parseNone s = none) ∧
    ∃ bad, bad ∈ cmdBadIgnore.ignore ∧ parseNone bad = none ∧
      override_config parseNone cmdBadIgnore cfg0 = .exitProcess 1 bad :=
  ⟨by decide, C4_unparsable_ignore_exits parseNone cmdBadIgnore cfg0 (by decide)⟩

/-- C7 counterexample: with a base configuration whose output format is
already `Json` and no `--json` flag, the merged output format is `Json`
although the flag was not given — "Json exactly when the flag is given"
fails as a biconditional. -/
theorem C7_counterexample_base_json :
    mergedOutputFormat (override_config parseAll AuditCommand.default cfgJson) =
      some OutputFormat.Json ∧
    AuditCommand.default.output_json = false := by
  exact ⟨rfl, rfl⟩

/-- C7 (amended): the merged output format is `Json` whenever `--json` is
given, and equals the base configuration's output format (which may itself
be `Json`) when the flag is absent. -/
theorem C7_output_format (parse : String → Option AdvisoryId)
    (cmd : AuditCommand) (cfg cfg' : AuditConfig ε)
    (h : override_config parse cmd cfg = .ok cfg') :
    (cmd.output_json = true → cfg'.output_format = OutputFormat.Json) ∧
    (cmd.output_json = false → cfg'.output_format = cfg.output_format) := by
  obtain ⟨-, rfl⟩ := (override_config_ok_iff parse cmd cfg cfg').mp h
  constructor <;> (intro hv; simp [hv])

/-- Witness for C7: `--json` over the default configuration. -/
theorem C7_output_format_witness :
    (cmdJson.output_json = true →
      (AuditConfig.output_format { cfg0 with output_format := OutputFormat.Json })
        = OutputFormat.Json) ∧
    (cmdJson.output_json = false →
      (AuditConfig.output_format { cfg0 with output_format := OutputFormat.Json })
        = cfg0.output_format) :=
  C7_output_format parseAll cmdJson cfg0 _ rfl

/-- C8 (frame): a successful merge never changes the fields outside the ten
CLI-controlled ones (`extra` is preserved), and every field whose CLI
option is absent keeps exactly its config-file value. -/
theorem C8_frame (parse : String → Option AdvisoryId)
    (cmd : AuditCommand) (cfg cfg' : AuditConfig ε)
    (h : override_config parse cmd cfg = .ok cfg') :
    cfg'.extra = cfg.extra ∧
    (cmd.color = none → cfg'.color = cfg.color) ∧
    (cmd.db = none → cfg'.advisory_db_path = cfg.advisory_db_path) ∧
    (cmd.ignore = [] → cfg'.ignore = cfg.ignore) ∧
    (cmd.no_fetch = false → cfg'.no_fetch = cfg.no_fetch) ∧
    (cmd.stale = false → cfg'.allow_stale = cfg.allow_stale) ∧
    (cmd.target_arch = none → cfg'.target_arch = cfg.target_arch) ∧
    (cmd.target_os = none → cfg'.target_os = cfg.target_os) ∧
    (cmd.url = none → cfg'.advisory_db_url = cfg.advisory_db_url) ∧
    (cmd.quiet = false → cfg'.quiet = cfg.quiet) ∧
    (cmd.output_json = false → cfg'.output_format = cfg.output_format) := by
  obtain ⟨-, rfl⟩ := (override_config_ok_iff parse cmd cfg cfg').mp h
  refine ⟨rfl, ?_, ?_, ?_, ?_, ?_, ?_, ?_, ?_, ?_, ?_⟩ <;>
    (intro hv; simp [hv])

/-- Witness for C8: the all-absent command merged over the default
configuration. -/
theorem C8_frame_witness :
    cfg0.extra = cfg0.extra ∧
    (AuditCommand.default.color = none → cfg0.color = cfg0.color) ∧
    (AuditCommand.default.db = none → cfg0.advisory_db_path = cfg0.advisory_db_path) ∧
    (AuditCommand.default.ignore = [] → cfg0.ignore = cfg0.ignore) ∧
    (AuditCommand.default.no_fetch = false → cfg0.no_fetch = cfg0.no_fetch) ∧
    (AuditCommand.default.stale = false → cfg0.allow_stale = cfg0.allow_stale) ∧
    (AuditCommand.default.target_arch = none → cfg0.target_arch = cfg0.target_arch) ∧
    (AuditCommand.default.target_os = none → cfg0.target_os = cfg0.target_os) ∧
    (AuditCommand.default.url = none → cfg0.advisory_db_url = cfg0.advisory_db_url) ∧
    (AuditCommand.default.quiet = false → cfg0.quiet = cfg0.quiet) ∧
    (AuditCommand.default.output_json = false → cfg0.output_format = cfg0.output_format) :=
  C8_frame parseAll AuditCommand.default cfg0 cfg0 rfl

/-- C9 (totality): when every `--ignore` value parses, the merge returns
`Ok` with a merged configuration; since `MergeResult` has no error
constructor besides the process exit, the unparsable-ignore exit is the
only failure mode of the merge. -/
theorem C9_total_on_parsable (parse : String → Option AdvisoryId)
    (cmd : AuditCommand) (cfg : AuditConfig ε)
    (h : ∀ s ∈ cmd.ignore, (parse s).isSome) :
    ∃ cfg', override_config parse cmd cfg = .ok cfg' :=
  ⟨_, (override_config_ok_iff parse cmd cfg _).mpr ⟨h, rfl⟩⟩

/-- Witness for C9: a command whose single ignore id parses. -/
theorem C9_total_on_parsable_witness :
    ∃ cfg', override_config parseAll cmdIgnoreOnce cfg0 = .ok cfg' :=
  C9_total_on_parsable parseAll cmdIgnoreOnce cfg0 (by decide)

/-- C10: with help and version not requested, `run` audits `Cargo.lock`
when `--file` is absent and audits exactly the supplied path (including
the stdin sentinel `-`) when `--file` is given. -/
theorem C10_lockfile_path (cmd : AuditCommand)
    (h1 : cmd.help = false) (h2 : cmd.version = false) :
    (cmd.file = none → cmd.run = .audit "Cargo.lock") ∧
    (∀ s, cmd.file = some s → cmd.run = .audit s) := by
  constructor
  · intro hf; simp [AuditCommand.run, h1, h2, hf, pathBufFrom, CARGO_LOCK_FILE]
  · intro s hf; simp [AuditCommand.run, h1, h2, hf, pathBufFrom]

/-- Witness for C10: `--file -` (the stdin sentinel) is passed on verbatim. -/
theorem C10_lockfile_path_witness :
    cmdFileStdin.help = false ∧ cmdFileStdin.version = false ∧
    ((cmdFileStdin.file = none → cmdFileStdin.run = .audit "Cargo.lock") ∧
     (∀ s, cmdFileStdin.file = some s → cmdFileStdin.run = .audit s)) :=
  ⟨rfl, rfl, C10_lockfile_path cmdFileStdin rfl rfl⟩

/-!
The vulnerability matcher and report builder are not part of the visible
source (`src/` holds only the `audit` subcommand, which delegates to the
auditor); they are modelled from the specification (§3, §4.3, §4.4) below.
-/

/-- Modelled from the spec: a semantic version `major.minor.patch`
(§4.3 numeric semantics; pre-release ordering is omitted, no claim
depends on it). -/
structure Version where
  major : Nat
  minor : Nat
  patch : Nat
deriving DecidableEq, Repr

/-- Strict lexicographic precedence on versions. -/
def Version.lt (a b : Version) : Bool :=
  if a.major ≠ b.major then decide (a.major < b.major)
  else if a.minor ≠ b.minor then decide (a.minor < b.minor)
  else decide (a.patch < b.patch)

/-- Non-strict precedence on versions. -/
def Version.le (a b : Version) : Bool :=
  Version.lt a b || decide (a = b)

/-- Modelled from the spec: one bound of a version range, with its own
inclusive/exclusive operator (§4.3: "range membership is
inclusive/exclusive per each bound's own operator"). -/
inductive ReqOp where
  | lt : ReqOp
  | le : ReqOp
  | gt : ReqOp
  | ge : ReqOp
  | exact : ReqOp
deriving DecidableEq, Repr

/-- A single version-range bound. -/
structure Bound where
  op : ReqOp
  ver : Version
deriving DecidableEq, Repr

/-- Whether a version satisfies one bound. -/
def Bound.holdsFor (b : Bound) (v : Version) : Bool :=
  match b.op with
  | .lt => Version.lt v b.ver
  | .le => Version.le v b.ver
  | .gt => Version.lt b.ver v
  | .ge => Version.le b.ver v
  | .exact => decide (v = b.ver)

/-- A version requirement: conjunction of bounds (e.g. `>=1.0.0,<1.3.0`). -/
def reqMatches (req : List Bound) (v : Version) : Bool :=
  req.all (fun b => b.holdsFor v)

/-- Modelled from the spec: an `AffectedRange` combines "affected"
(vulnerable) bounds with "unaffected/patched" sub-ranges (§3). -/
structure AffectedRange where
  affected : List Bound
  unaffected : List (List Bound)
  patched : List (List Bound)
deriving DecidableEq, Repr

/-- Membership in the vulnerable set: within the affected bounds and not
within any unaffected or patched sub-range (§4.3 step 2). -/
def AffectedRange.vulnerable (r : AffectedRange) (v : Version) : Bool :=
  reqMatches r.affected v &&
  !(r.unaffected.any (fun req => reqMatches req v)) &&
  !(r.patched.any (fun req => reqMatches req v))

/-- Modelled from the spec: advisory category (§3). -/
inductive Category where
  | vulnerability : Category
  | unmaintained : Category
  | notice : Category
deriving DecidableEq, Repr

/-- Modelled from the spec: an `AdvisoryRecord` (§3); `aliases`, `severity`
and `date` play no role in matching and are omitted. -/
structure Advisory where
  id : String
  package : String
  affected : AffectedRange
  withdrawn : Option Nat
  arch_constraint : Option (List Arch)
  os_constraint : Option (List OS)
  category : Category
deriving DecidableEq, Repr

/-- Modelled from the spec: a `Dependency` (§3). -/
structure Dependency where
  name : String
  version : Version
deriving DecidableEq, Repr

/-- Modelled from the spec: a `Match` pairs one dependency with one
advisory that applies to it (§3). -/
structure Match where
  dependency : Dependency
  advisory : Advisory
deriving DecidableEq, Repr

/-- Modelled from the spec: `records_for(package_name)` — the advisories
indexed under one package name (§4.1). -/
def records_for (db : List Advisory) (pkg : String) : List Advisory :=
  db.filter (fun a => decide (a.package = pkg))

/-- A filter on one dimension allows an advisory unless both the filter and
the advisory's constraint are set and the constraint does not contain the
filter value (§4.3 step 2). -/
def constraintAllows (filt : Option String) (constr : Option (List String)) : Bool :=
  match filt, constr with
  | some f, some cs => decide (f ∈ cs)
  | _, _ => true

/-- Modelled from the spec: the §4.3 step-2 skip chain for one candidate
advisory — skip if withdrawn, skip if ignored, skip if an arch or os filter
is excluded by the advisory's constraint; otherwise test version
membership. -/
def advisoryApplies (ignored : List String) (archFilt osFilt : Option String)
    (d : Dependency) (a : Advisory) : Bool :=
  if a.withdrawn.isSome then false
  else if decide (a.id ∈ ignored) then false
  else if !constraintAllows archFilt a.arch_constraint then false
  else if !constraintAllows osFilt a.os_constraint then false
  else a.affected.vulnerable d.version

/-- Matches contributed by a single dependency: every candidate advisory
from `records_for` that passes the skip chain produces one match
(§4.3 steps 1–3). -/
def matchesFor (db : List Advisory) (ignored : List String)
    (archFilt osFilt : Option String) (d : Dependency) : List Match :=
  (records_for db d.name).filterMap
    (fun a => if advisoryApplies ignored archFilt osFilt d a then some ⟨d, a⟩ else none)

/-- Matches of all dependencies, in dependency order. -/
def collectMatches (db : List Advisory) (ignored : List String)
    (archFilt osFilt : Option String) : List Dependency → List Match
  | [] => []
  | d :: rest =>
    matchesFor db ignored archFilt osFilt d ++
      collectMatches db ignored archFilt osFilt rest

/-- Deduplication key of a match: (dependency identity, advisory id)
(§4.3 step 3). -/
def matchKey (m : Match) : Dependency × String :=
  (m.dependency, m.advisory.id)

/-- Keep the first match for each (dependency, advisory id) key. -/
def dedupBy (seen : List (Dependency × String)) : List Match → List Match
  | [] => []
  | m :: rest =>
    if matchKey m ∈ seen then dedupBy seen rest
    else m :: dedupBy (matchKey m :: seen) rest

/-- Modelled from the spec: the `VulnerabilityMatcher` core algorithm
(§4.3) — per-dependency candidate lookup, the skip chain, and dedup by
(dependency identity, advisory id). -/
def matcherRun (db : List Advisory) (deps : List Dependency)
    (ignored : List String) (archFilt osFilt : Option String) : List Match :=
  dedupBy [] (collectMatches db ignored archFilt osFilt deps)

/-- Modelled from the spec: a `Report` holds the blocking matches and the
separate informational findings (§3); ordering and summary counts play no
role in the claims settled here. -/
structure Report where
  vulnerabilities : List Match
  informational : List Match
deriving DecidableEq, Repr

/-- Modelled from the spec: `ReportBuilder.build` separates advisories of
category `unmaintained`/`notice` into the informational collection; they
never populate the blocking collection (§4.3 step 4, §4.4). -/
def buildReport (ms : List Match) : Report :=
  { vulnerabilities := ms.filter (fun m => decide (m.advisory.category = .vulnerability))
  , informational := ms.filter (fun m => !decide (m.advisory.category = .vulnerability)) }

/-- Modelled from the spec: the CI exit disposition (§4.4). -/
inductive ExitCode where
  | clean : ExitCode
  | vulnerabilitiesFound : ExitCode
deriving DecidableEq, Repr

/-- Process exit code of a disposition: `Clean` is 0, `VulnerabilitiesFound`
is conventionally 1 (§4.4). -/
def ExitCode.code : ExitCode → Nat
  | .clean => 0
  | .vulnerabilitiesFound => 1

/-- Modelled from the spec: `exit_disposition(report)` is `Clean` iff the
blocking-match collection is empty (§4.4). -/
def exit_disposition (r : Report) : ExitCode :=
  if r.vulnerabilities.isEmpty then .clean else .vulnerabilitiesFound

/-- Ids are globally unique within the database (§3 invariant). -/
def UniqueIds (db : List Advisory) : Prop :=
  ∀ a₁ ∈ db, ∀ a₂ ∈ db, a₁.id = a₂.id → a₁ = a₂

instance (db : List Advisory) : Decidable (UniqueIds db) := by
  unfold UniqueIds; infer_instance

lemma constraintAllows_iff (filt : Option String) (constr : Option (List String)) :
    constraintAllows filt constr = true ↔
      ∀ f cs, filt = some f → constr = some cs → f ∈ cs := by
  cases filt <;> cases constr <;> simp [constraintAllows]

lemma vulnerable_iff (r : AffectedRange) (v : Version) :
    r.vulnerable v = true ↔
      reqMatches r.affected v = true ∧
      (∀ req ∈ r.unaffected, reqMatches req v = false) ∧
      (∀ req ∈ r.patched, reqMatches req v = false) := by
  unfold AffectedRange.vulnerable
  simp [List.any_eq_true, Bool.not_eq_true', and_assoc]

lemma advisoryApplies_iff (ignored : List String) (archFilt osFilt : Option String)
    (d : Dependency) (a : Advisory) :
    advisoryApplies ignored archFilt osFilt d a = true ↔
      a.withdrawn = none ∧ a.id ∉ ignored ∧
      constraintAllows archFilt a.arch_constraint = true ∧
      constraintAllows osFilt a.os_constraint = true ∧
      a.affected.vulnerable d.version = true := by
  unfold advisoryApplies
  cases hw : a.withdrawn <;>
    by_cases hi : a.id ∈ ignored <;>
    cases hca : constraintAllows archFilt a.arch_constraint <;>
    cases hco : constraintAllows osFilt a.os_constraint <;>
    simp [hw, hi, hca, hco]

lemma mem_matchesFor (db : List Advisory) (ignored : List String)
    (archFilt osFilt : Option String) (d : Dependency) (m : Match) :
    m ∈ matchesFor db ignored archFilt osFilt d ↔
      m.dependency = d ∧ m.advisory ∈ db ∧ m.advisory.package = d.name ∧
      advisoryApplies ignored archFilt osFilt d m.advisory = true := by
  obtain ⟨md, ma⟩ := m
  unfold matchesFor records_for
  simp only [List.mem_filterMap, List.mem_filter, decide_eq_true_eq,
    Option.ite_none_right_eq_some, Option.some.injEq, Match.mk.injEq]
  constructor
  · rintro ⟨a, ⟨hadb, hpkg⟩, happ, rfl, rfl⟩
    exact ⟨rfl, hadb, hpkg, happ⟩
  · rintro ⟨rfl, hadb, hpkg, happ⟩
    exact ⟨ma, ⟨hadb, hpkg⟩, happ, rfl, rfl⟩

lemma mem_collectMatches (db : List Advisory) (ignored : List String)
    (archFilt osFilt : Option String) (deps : List Dependency) (m : Match) :
    m ∈ collectMatches db ignored archFilt osFilt deps ↔
      m.dependency ∈ deps ∧ m ∈ matchesFor db ignored archFilt osFilt m.dependency := by
  induction deps with
  | nil => simp [collectMatches]
  | cons d rest ih =>
    simp only [collectMatches, List.mem_append, ih, List.mem_cons]
    constructor
    · rintro (hm | ⟨hd, hm⟩)
      · have hdep : m.dependency = d :=
          ((mem_matchesFor db ignored archFilt osFilt d m).mp hm).1
        exact ⟨Or.inl hdep, by rwa [hdep]⟩
      · exact ⟨Or.inr hd, hm⟩
    · rintro ⟨hd | hd, hm⟩
      · left; rwa [hd] at hm
      · right; exact ⟨hd, hm⟩

lemma mem_of_mem_dedupBy (seen : List (Dependency × String)) (ms : List Match)
    (m : Match) : m ∈ dedupBy seen ms → m ∈ ms := by
  induction ms generalizing seen with
  | nil => simp [dedupBy]
  | cons x rest ih =>
    simp only [dedupBy]
    split
    · intro h; exact List.mem_cons_of_mem x (ih seen h)
    · intro h
      rcases List.mem_cons.mp h with rfl | h'
      · exact List.mem_cons_self _ _
      · exact List.mem_cons_of_mem x (ih _ h')

lemma mem_dedupBy_of_mem (ms : List Match) :
    (∀ m₁ ∈ ms, ∀ m₂ ∈ ms, matchKey m₁ = matchKey m₂ → m₁ = m₂) →
    ∀ seen m, m ∈ ms → matchKey m ∉ seen → m ∈ dedupBy seen ms := by
  induction ms with
  | nil => intro _ seen m hm; simp at hm
  | cons x rest ih =>
    intro hinj seen m hm hseen
    have hinj' : ∀ m₁ ∈ rest, ∀ m₂ ∈ rest, matchKey m₁ = matchKey m₂ → m₁ = m₂ :=
      fun m₁ h₁ m₂ h₂ =>
        hinj m₁ (List.mem_cons_of_mem x h₁) m₂ (List.mem_cons_of_mem x h₂)
    simp only [dedupBy]
    by_cases hx : matchKey x ∈ seen
    · rw [if_pos hx]
      rcases List.mem_cons.mp hm with rfl | hmem
      · exact absurd hx hseen
      · exact ih hinj' seen m hmem hseen
    · rw [if_neg hx]
      by_cases hmx : m = x
      · subst hmx; exact List.mem_cons_self _ _
      · have hmem : m ∈ rest := by
          rcases List.mem_cons.mp hm with rfl | hmem
          · exact absurd rfl hmx
          · exact hmem
        refine List.mem_cons_of_mem x (ih hinj' _ m hmem ?_)
        intro hk
        rcases List.mem_cons.mp hk with hk1 | hk2
        · exact hmx (hinj m hm x (List.mem_cons_self x rest) hk1)
        · exact hseen hk2

lemma collect_key_inj (db : List Advisory) (ignored : List String)
    (archFilt osFilt : Option String) (deps : List Dependency)
    (h : UniqueIds db) :
    ∀ m₁ ∈ collectMatches db ignored archFilt osFilt deps,
    ∀ m₂ ∈ collectMatches db ignored archFilt osFilt deps,
      matchKey m₁ = matchKey m₂ → m₁ = m₂ := by
  intro m₁ h₁ m₂ h₂ hk
  have hdb₁ : m₁.advisory ∈ db :=
    ((mem_matchesFor db ignored archFilt osFilt m₁.dependency m₁).mp
      ((mem_collectMatches db ignored archFilt osFilt deps m₁).mp h₁).2).2.1
  have hdb₂ : m₂.advisory ∈ db :=
    ((mem_matchesFor db ignored archFilt osFilt m₂.dependency m₂).mp
      ((mem_collectMatches db ignored archFilt osFilt deps m₂).mp h₂).2).2.1
  obtain ⟨d₁, a₁⟩ := m₁
  obtain ⟨d₂, a₂⟩ := m₂
  simp only [matchKey, Prod.mk.injEq] at hk
  obtain ⟨rfl, hid⟩ := hk
  rw [h a₁ hdb₁ a₂ hdb₂ hid]

/-- C6: under the database invariant that advisory ids are unique, a match
(d, a) is produced by the matcher iff the dependency and advisory are in
scope, the names agree, the version lies in the affected range and in no
unaffected or patched sub-range, the advisory is not withdrawn, its id is
not ignored, and every constraint present on the advisory contains the
corresponding active filter (an absent constraint or absent filter
restricts nothing). -/
theorem C6_match_characterization (db : List Advisory) (deps : List Dependency)
    (ignored : List String) (archFilt osFilt : Option String)
    (h : UniqueIds db) (d : Dependency) (a : Advisory) :
    (⟨d, a⟩ : Match) ∈ matcherRun db deps ignored archFilt osFilt ↔
      d ∈ deps ∧ a ∈ db ∧ d.name = a.package ∧
      reqMatches a.affected.affected d.version = true ∧
      (∀ req ∈ a.affected.unaffected, reqMatches req d.version = false) ∧
      (∀ req ∈ a.affected.patched, reqMatches req d.version = false) ∧
      a.withdrawn = none ∧ a.id ∉ ignored ∧
      (∀ f cs, archFilt = some f → a.arch_constraint = some cs → f ∈ cs) ∧
      (∀ f cs, osFilt = some f → a.os_constraint = some cs → f ∈ cs) := by
  unfold matcherRun
  have hinj := collect_key_inj db ignored archFilt osFilt deps h
  constructor
  · intro hm
    have hc := mem_of_mem_dedupBy [] _ _ hm
    obtain ⟨hd, hmf⟩ :=
      (mem_collectMatches db ignored archFilt osFilt deps ⟨d, a⟩).mp hc
    obtain ⟨-, hdb, hpkg, happ⟩ :=
      (mem_matchesFor db ignored archFilt osFilt _ ⟨d, a⟩).mp hmf
    obtain ⟨hw, hig, hca, hco, hv⟩ :=
      (advisoryApplies_iff ignored archFilt osFilt _ _).mp happ
    obtain ⟨hvm, hvu, hvp⟩ := (vulnerable_iff a.affected d.version).mp hv
    exact ⟨hd, hdb, hpkg.symm, hvm, hvu, hvp, hw, hig,
      (constraintAllows_iff archFilt a.arch_constraint).mp hca,
      (constraintAllows_iff osFilt a.os_constraint).mp hco⟩
  · rintro ⟨hd, hdb, hpkg, hvm, hvu, hvp, hw, hig, hcaP, hcoP⟩
    refine mem_dedupBy_of_mem _ hinj [] _ ?_ (by simp)
    refine (mem_collectMatches db ignored archFilt osFilt deps ⟨d, a⟩).mpr ⟨hd, ?_⟩
    refine (mem_matchesFor db ignored archFilt osFilt _ ⟨d, a⟩).mpr
      ⟨rfl, hdb, hpkg.symm, ?_⟩
    exact (advisoryApplies_iff ignored archFilt osFilt _ _).mpr
      ⟨hw, hig, (constraintAllows_iff archFilt a.arch_constraint).mpr hcaP,
        (constraintAllows_iff osFilt a.os_constraint).mpr hcoP,
        (vulnerable_iff a.affected d.version).mpr ⟨hvm, hvu, hvp⟩⟩

/-- The spec's example scenario 1: advisory ADV-1 for package foo,
affected at least 1.0.0 and below 1.3.0, patched at 1.3.0 and above. -/
def advADV1 : Advisory :=
  { id := "ADV-1", package := "foo"
  , affected :=
    { affected := [⟨ReqOp.ge, ⟨1, 0, 0⟩⟩, ⟨ReqOp.lt, ⟨1, 3, 0⟩⟩]
    , unaffected := []
    , patched := [[⟨ReqOp.ge, ⟨1, 3, 0⟩⟩]] }
  , withdrawn := none, arch_constraint := none, os_constraint := none
  , category := Category.vulnerability }

/-- The spec's example scenario 1: dependency foo at version 1.2.0. -/
def depFoo : Dependency := { name := "foo", version := ⟨1, 2, 0⟩ }

/-- Witness for C6: the characterization applied to the spec's example
scenario (foo at 1.2.0 against ADV-1, no ignores, no filters). -/
theorem C6_match_characterization_witness :
    UniqueIds [advADV1] ∧
    ((⟨depFoo, advADV1⟩ : Match) ∈ matcherRun [advADV1] [depFoo] [] none none ↔
      depFoo ∈ [depFoo] ∧ advADV1 ∈ [advADV1] ∧
      depFoo.name = advADV1.package ∧
      reqMatches advADV1.affected.affected depFoo.version = true ∧
      (∀ req ∈ advADV1.affected.unaffected, reqMatches req depFoo.version = false) ∧
      (∀ req ∈ advADV1.affected.patched, reqMatches req depFoo.version = false) ∧
      advADV1.withdrawn = none ∧ advADV1.id ∉ ([] : List String) ∧
      (∀ f cs, (none : Option String) = some f →
        advADV1.arch_constraint = some cs → f ∈ cs) ∧
      (∀ f cs, (none : Option String) = some f →
        advADV1.os_constraint = some cs → f ∈ cs)) :=
  ⟨by decide,
   C6_match_characterization [advADV1] [depFoo] [] none none (by decide) depFoo advADV1⟩

/-- C5: the exit code is 0 iff the blocking-match collection of the report
is empty, and a report with no blocking matches yields exit code 0 whatever
its informational findings are. -/
theorem C5_exit_code_clean_iff (r : Report) :
    ((exit_disposition r).code = 0 ↔ r.vulnerabilities = []) ∧
    ∀ info, r.vulnerabilities = [] →
      (exit_disposition { r with informational := info }).code = 0 := by
  constructor
  · cases hv : r.vulnerabilities <;>
      simp [exit_disposition, ExitCode.code, hv]
  · intro info hv
    simp [exit_disposition, ExitCode.code, hv]

/-- An informational-only report (one unmaintained finding, no blocking
matches). -/
def advNote : Advisory := { advADV1 with id := "ADV-2", category := Category.unmaintained }

def reportInfoOnly : Report :=
  { vulnerabilities := [], informational := [⟨depFoo, advNote⟩] }

/-- Witness for C5: an informational-only report exits clean. -/
theorem C5_exit_code_clean_iff_witness :
    ((exit_disposition reportInfoOnly).code = 0 ↔ reportInfoOnly.vulnerabilities = []) ∧
    (exit_disposition reportInfoOnly).code = 0 :=
  ⟨(C5_exit_code_clean_iff reportInfoOnly).1,
   (C5_exit_code_clean_iff reportInfoOnly).2 reportInfoOnly.informational rfl⟩

end CargoAudit
